import Mathlib

/-!
Verification development for the `pullpanda` CLI (`cmd/root.go`).

The Go program is shallowly embedded: each Go function of interest is
translated to a Lean definition operating on `List Char` / `String` /
`List`-based data.  Go's 64-bit machine integers (`int`, `time.Duration`)
are modelled as `Int` together with an explicit two's-complement
wrap-around `wrap64` applied at every multiplication, exactly where the Go
code multiplies `time.Duration` values.  Impure ingredients are modelled
as explicit parameters:
  * the HTTP fetch `makeRequest` becomes an abstract `fetch : String →
    List PullRequest` mapping the query string to the decoded item list;
  * `time.Now().Add(-d).Format("2006-01-02")` becomes an abstract
    `resolveStart : Int → String` from the parsed duration (nanoseconds)
    to the formatted start date;
  * the nondeterministic completion order of the per-handle goroutines in
    `fetchAllPRs` becomes an explicit `order : List Nat` of slot writes,
    quantified over all permutations of the handle indices.
-/

deriving instance DecidableEq for Except

/-- Embeds Go `type Config struct` (root.go lines 20-25). -/
structure Config where
  Handles : List String
  Orgs : List String
  Repos : List String
  Statuses : List String
deriving DecidableEq

/-- Embeds Go `type PullRequest struct` (root.go lines 27-31). -/
structure PullRequest where
  URL : String
  Title : String
  Merged : Bool
deriving DecidableEq

/-- Embeds Go `type Summary struct` (root.go lines 33-37).  The Go map
`Counts map[string]int` is modelled as an association list with unique
keys built only through `cAdd`; counts are `Nat` because they are sums of
list lengths. -/
structure Summary where
  Handle : String
  Counts : List (String × Nat)
  PRs : List PullRequest
deriving DecidableEq

/-- The zero value of `Summary`, as produced by Go's
`make([]Summary, len(config.Handles))`. -/
def emptySummary : Summary := ⟨"", [], []⟩

/-- Reading a Go map: `m[k]` returns the stored value or the zero value 0. -/
def cGet : List (String × Nat) → String → Nat
  | [], _ => 0
  | (k, v) :: rest, q => if k = q then v else cGet rest q

/-- Writing a Go map via `m[k] += d`: updates the entry in place or
appends a fresh one. -/
def cAdd : List (String × Nat) → String → Nat → List (String × Nat)
  | [], q, d => [(q, d)]
  | (k, v) :: rest, q, d => if k = q then (k, v + d) :: rest else (k, v) :: cAdd rest q d

/-- Sum of all values stored in the map. -/
def cSum (m : List (String × Nat)) : Nat := (m.map Prod.snd).sum

/-! ## Duration parser (root.go lines 99-134, `parseDuration`) -/

/-- Two's complement wrap-around of 64-bit signed integer arithmetic:
Go's `int64` multiplication computes the mathematical result modulo
`2^64`, re-centred into `[-2^63, 2^63)`. -/
def wrap64 (x : Int) : Int :=
  (x + 9223372036854775808) % 18446744073709551616 - 9223372036854775808

/-- Decimal digit run evaluation, the digit loop inside Go's
`strconv.Atoi`/`ParseInt`: fails on the first non-digit character. -/
def digitsVal : List Char → Nat → Option Nat
  | [], acc => some acc
  | c :: rest, acc =>
    if c.isDigit then digitsVal rest (acc * 10 + (c.toNat - 48)) else none

/-- Embeds Go `strconv.Atoi` (base 10, 64-bit `int`): an optional sign
followed by at least one digit; values outside `[-2^63, 2^63-1]` are a
range error (`err != nil`, so `parseDuration` fails). -/
def goAtoi (cs : List Char) : Option Int :=
  match cs with
  | [] => none
  | c :: rest =>
    let p : Bool × List Char :=
      if c = '-' then (true, rest) else if c = '+' then (false, rest) else (false, cs)
    match p.2 with
    | [] => none
    | _ :: _ =>
      match digitsVal p.2 0 with
      | none => none
      | some m =>
        let val : Int := if p.1 then -(m : Int) else (m : Int)
        if -(9223372036854775808:Int) ≤ val ∧ val ≤ 9223372036854775807 then some val
        else none

/-- The three error classes of `parseDuration`: the two `fmt.Errorf`
messages (`"invalid duration format"`, `"invalid duration unit"`) and the
error returned by `strconv.Atoi`. -/
inductive DurationError where
  | invalidFormat
  | atoiError
  | invalidUnit
deriving DecidableEq

/-- The unit/value split of `parseDuration` (root.go lines 104-111):
`unit` is the last character and `value` the rest, except that a token of
length `> 2` ending in `"mo"` uses the two-character unit `"mo"`. -/
def splitDuration (cs : List Char) : List Char × List Char :=
  let unit := cs.drop (cs.length - 1)
  let value := cs.take (cs.length - 1)
  if unit = ['o'] ∧ cs.length > 2 ∧ cs.drop (cs.length - 2) = ['m', 'o'] then
    (cs.take (cs.length - 2), ['m', 'o'])
  else
    (value, unit)

/-- The `switch unit` of `parseDuration` (root.go lines 118-133), with
Go's chained `time.Duration` multiplications and their wrap-around kept
exactly: e.g. `time.Duration(n) * 24 * time.Hour` is
`wrap64 (wrap64 (n * 24) * 3600000000000)` nanoseconds. -/
def applyUnit (n : Int) : List Char → Except DurationError Int
  | ['s'] => .ok (wrap64 (n * 1000000000))
  | ['m'] => .ok (wrap64 (n * 60000000000))
  | ['h'] => .ok (wrap64 (n * 3600000000000))
  | ['d'] => .ok (wrap64 (wrap64 (n * 24) * 3600000000000))
  | ['w'] => .ok (wrap64 (wrap64 (wrap64 (n * 7) * 24) * 3600000000000))
  | ['m', 'o'] => .ok (wrap64 (wrap64 (wrap64 (n * 30) * 24) * 3600000000000))
  | _ => .error .invalidUnit

/-- Embeds Go `parseDuration` (root.go lines 99-134) on the character
list of the token.  The result is the `time.Duration` in nanoseconds. -/
def parseDurationChars (cs : List Char) : Except DurationError Int :=
  if cs.length < 2 then .error .invalidFormat
  else
    match goAtoi (splitDuration cs).1 with
    | none => .error .atoiError
    | some n => applyUnit n (splitDuration cs).2

/-- Embeds Go `func parseDuration(duration string) (time.Duration, error)`. -/
def parseDuration (s : String) : Except DurationError Int :=
  parseDurationChars s.toList

/-- The six duration units accepted by `parseDuration`. -/
inductive GoUnit where
  | s | m | h | d | w | mo
deriving DecidableEq

/-- The unit's suffix characters in the duration token. -/
def unitChars : GoUnit → List Char
  | .s => ['s']
  | .m => ['m']
  | .h => ['h']
  | .d => ['d']
  | .w => ['w']
  | .mo => ['m', 'o']

/-- Seconds per unit: 1, 60, 3600, 86400, 604800, 2592000. -/
def unitSeconds : GoUnit → Int
  | .s => 1
  | .m => 60
  | .h => 3600
  | .d => 86400
  | .w => 604800
  | .mo => 2592000

/-- Nanoseconds per unit (the `time.Duration` scale Go computes in). -/
def unitNanos (u : GoUnit) : Int := unitSeconds u * 1000000000

/-! ## Query builder (root.go lines 160-189) -/

/-- One date clause appended to the query string by `fetchPRs`:
`" merged:>=start"`, `" merged:<=end"`, `" created:>=start"` or
`" created:<=end"`. -/
inductive DateClause where
  | mergedGE (d : String)
  | mergedLE (d : String)
  | createdGE (d : String)
  | createdLE (d : String)
deriving DecidableEq

/-- The exact text each clause contributes to the query string
(the `fmt.Sprintf` calls at root.go lines 177, 180, 184, 187). -/
def DateClause.render : DateClause → String
  | .mergedGE d => " merged:>=" ++ d
  | .mergedLE d => " merged:<=" ++ d
  | .createdGE d => " created:>=" ++ d
  | .createdLE d => " created:<=" ++ d

/-- Whether a clause is of the `merged:` kind. -/
def DateClause.isMergedKind : DateClause → Bool
  | .mergedGE _ => true
  | .mergedLE _ => true
  | _ => false

/-- Whether a clause is of the `created:` kind. -/
def DateClause.isCreatedKind : DateClause → Bool
  | .createdGE _ => true
  | .createdLE _ => true
  | _ => false

/-- The date clauses appended by `fetchPRs` (root.go lines 175-189):
`merged:` bounds when the status is `"merged"`, `created:` bounds
otherwise, each bound only when the corresponding date is non-empty. -/
def dateClauses (status startD endD : String) : List DateClause :=
  if status = "merged" then
    (if startD ≠ "" then [DateClause.mergedGE startD] else []) ++
    (if endD ≠ "" then [DateClause.mergedLE endD] else [])
  else
    (if startD ≠ "" then [DateClause.createdGE startD] else []) ++
    (if endD ≠ "" then [DateClause.createdLE endD] else [])

/-- The per-(handle, status) query string before scoping (root.go lines
160, 175-189): `"author:<h> is:pr is:<status>"` followed by the rendered
date clauses. -/
def buildQuery (handle status startD endD : String) : String :=
  "author:" ++ handle ++ " is:pr is:" ++ status ++
    String.join ((dateClauses status startD endD).map DateClause.render)

/-- The scope fan-out of `fetchPRs` (root.go lines 191-230): one query
per organization when any organization is configured (repositories are
never consulted in that branch), otherwise one query per repository,
otherwise the single unscoped query. -/
def scopeQueries (query : String) (orgs repos : List String) : List String :=
  if orgs.length > 0 then orgs.map (fun org => query ++ " org:" ++ org)
  else if repos.length > 0 then repos.map (fun repo => query ++ " repo:" ++ repo)
  else [query]

/-! ## Scope fan-out and per-handle fetch (root.go lines 152-234) -/

/-- One iteration of the inner scope loop body (root.go lines 201-203,
215-217, 227-229): fetch the query's results, add their number to the
status's count and append them to the PR list. -/
def doScopes (fetch : String → List PullRequest) (status : String)
    (qs : List String) (summ : Summary) : Summary :=
  qs.foldl (fun s q =>
    let prs := fetch q
    { s with Counts := cAdd s.Counts status prs.length, PRs := s.PRs ++ prs }) summ

/-- The effective start date of one status iteration (root.go lines
162-173): when a duration flag is set, it is parsed (a parse error is the
fatal `log.Fatalf`) and the start date is recomputed from it via the
abstract `resolveStart`; otherwise the flag-supplied start date is used. -/
def startResolve (resolveStart : Int → String) (dur startD : String) :
    Except DurationError String :=
  if dur = "" then .ok startD else (parseDuration dur).map resolveStart

/-- The status loop of `fetchPRs` (root.go lines 159-231), also
recording the list of issued search queries (one `makeRequest` per
element).  A duration parse error is Go's `log.Fatalf`: the loop stops
with the error and no further query is issued. -/
def fetchPRsLoop (fetch : String → List PullRequest) (resolveStart : Int → String)
    (dur startD endD handle : String) (orgs repos : List String) :
    List String → Summary → List String → Except DurationError Summary × List String
  | [], summ, issued => (.ok summ, issued)
  | status :: rest, summ, issued =>
    match startResolve resolveStart dur startD with
    | .error e => (.error e, issued)
    | .ok sd =>
      let qs := scopeQueries (buildQuery handle status sd endD) orgs repos
      fetchPRsLoop fetch resolveStart dur startD endD handle orgs repos rest
        (doScopes fetch status qs summ) (issued ++ qs)

/-- Embeds Go `func fetchPRs` (root.go lines 152-234).  Returns the
summary (or the fatal duration error) together with the trace of issued
search queries. -/
def fetchPRs (fetch : String → List PullRequest) (resolveStart : Int → String)
    (dur startD endD handle : String) (orgs repos statuses : List String) :
    Except DurationError Summary × List String :=
  fetchPRsLoop fetch resolveStart dur startD endD handle orgs repos statuses
    ⟨handle, [], []⟩ []

/-- Extracts the summary of a completed per-handle unit.  Under the
fatal-error policy an `error` never reaches the coordinator's result
(the process has exited), so the error arm is the unreached zero value. -/
def okOr : Except DurationError Summary → Summary
  | .ok s => s
  | .error _ => emptySummary

/-! ## Handle concurrency coordinator (root.go lines 136-150) -/

/-- Embeds Go `func fetchAllPRs` (root.go lines 136-150).  The slice
`make([]Summary, len(handles))` of zero values is written once per
handle, slot `i` receiving `work handles[i]`; `order` is the order in
which the concurrent goroutines happen to complete their writes. -/
def fetchAllPRs (work : String → Summary) (handles : List String)
    (order : List Nat) : List Summary :=
  order.foldl (fun acc i => acc.set i (work (handles.getD i "")))
    (List.replicate handles.length emptySummary)

/-- The default-statuses rule of `loadConfig` (root.go lines 91-94). -/
def applyDefaultStatuses (c : Config) : Config :=
  { c with Statuses := if c.Statuses = [] then ["merged"] else c.Statuses }

/-- Embeds Go `func printDetailedPRs` (root.go lines 301-308): one
`(title, url)` line per PR, grouped by handle in summary order. -/
def detailLines (summaries : List Summary) : List (String × String) :=
  summaries.flatMap (fun s => s.PRs.map (fun pr => (pr.Title, pr.URL)))

/-- Embeds the `Run` closure of `rootCmd` (root.go lines 52-62): fetch
all summaries, then emit the detailed PR listing only when `--show-prs`
was given.  Returns the summaries and the optional detail listing. -/
def runRoot (fetch : String → List PullRequest) (resolveStart : Int → String)
    (dur startD endD : String) (config : Config) (showPRs : Bool)
    (order : List Nat) : List Summary × Option (List (String × String)) :=
  let cfg := applyDefaultStatuses config
  let summaries := fetchAllPRs
    (fun h => okOr (fetchPRs fetch resolveStart dur startD endD h
      cfg.Orgs cfg.Repos cfg.Statuses).1)
    cfg.Handles order
  (summaries, if showPRs then some (detailLines summaries) else none)

/-! ## Presenter (root.go lines 265-299, `printSummaryTable`) -/

/-- Embeds Go `func printSummaryTable` (root.go lines 265-299) at the
level of cell contents: returns the body rows (one per summary, handle
cell, one count cell per status, row-total cell) and the footer row
(`"Total"`, one column-total cell per status, grand-total cell), with the
same loop structure and the same `totalCounts` accumulator map as the
source. -/
def printSummaryTable (summaries : List Summary) (statuses : List String) :
    List (List String) × List String :=
  let outer := summaries.foldl
    (fun (acc : List (List String) × List (String × Nat)) s =>
      let inner := statuses.foldl
        (fun (rt : List String × Nat × List (String × Nat)) status =>
          let count := cGet s.Counts status
          (rt.1 ++ [toString count], rt.2.1 + count, cAdd rt.2.2 status count))
        ([s.Handle], 0, acc.2)
      (acc.1 ++ [inner.1 ++ [toString inner.2.1]], inner.2.2))
    ([], [])
  let footer := statuses.foldl
    (fun (tg : List String × Nat) status =>
      (tg.1 ++ [toString (cGet outer.2 status)], tg.2 + cGet outer.2 status))
    (["Total"], 0)
  (outer.1, footer.1 ++ [toString footer.2])

/-! ## Helper lemmas: 64-bit wrap-around -/

theorem wrap64_emod (a : Int) :
    wrap64 a % 18446744073709551616 = a % 18446744073709551616 := by
  unfold wrap64
  rw [Int.sub_emod, Int.emod_emod_of_dvd _ dvd_rfl, ← Int.sub_emod,
    add_sub_cancel_right]

theorem wrap64_congr {a b : Int}
    (h : a % 18446744073709551616 = b % 18446744073709551616) :
    wrap64 a = wrap64 b := by
  unfold wrap64
  rw [Int.add_emod, h, ← Int.add_emod]

theorem wrap64_mul_left (a b : Int) : wrap64 (wrap64 a * b) = wrap64 (a * b) :=
  wrap64_congr (by rw [Int.mul_emod, wrap64_emod, ← Int.mul_emod])

theorem wrap64_mul_mul (a b c : Int) :
    wrap64 (wrap64 a * b * c) = wrap64 (a * b * c) := by
  rw [mul_assoc, wrap64_mul_left, ← mul_assoc]

theorem wrap64_eq_self {x : Int} (h1 : -(9223372036854775808:Int) ≤ x)
    (h2 : x < 9223372036854775808) : wrap64 x = x := by
  unfold wrap64
  omega

/-! ## Helper lemmas: duration parsing -/

theorem goAtoi_ne_nil {cs : List Char} {n : Int} (h : goAtoi cs = some n) :
    cs ≠ [] := by
  intro hcs
  subst hcs
  simp [goAtoi] at h

theorem splitDuration_append_single (v : List Char) (c : Char) (hc : c ≠ 'o') :
    splitDuration (v ++ [c]) = (v, [c]) := by
  have hlen : (v ++ [c]).length = v.length + 1 := by simp
  unfold splitDuration
  rw [hlen, Nat.add_sub_cancel, List.take_left, List.drop_left, if_neg]
  intro hcon
  apply hc
  have := hcon.1
  simpa using this

theorem splitDuration_append_mo (v : List Char) (hv : v ≠ []) :
    splitDuration (v ++ ['m', 'o']) = (v, ['m', 'o']) := by
  have hvp : 1 ≤ v.length := List.length_pos.mpr hv
  have hlen : (v ++ ['m', 'o']).length = v.length + 2 := by simp
  have hdrop1 : (v ++ ['m', 'o']).drop (v.length + 1) = ['o'] := by
    have : v ++ ['m', 'o'] = (v ++ ['m']) ++ ['o'] := by simp
    rw [this, show v.length + 1 = (v ++ ['m']).length by simp, List.drop_left]
  have hdrop2 : (v ++ ['m', 'o']).drop v.length = ['m', 'o'] := List.drop_left v _
  have htake : (v ++ ['m', 'o']).take v.length = v := List.take_left v _
  unfold splitDuration
  rw [hlen]
  simp only [show v.length + 2 - 1 = v.length + 1 from by omega,
    show v.length + 2 - 2 = v.length from by omega, hdrop1, hdrop2, htake]
  simp only [true_and, and_true]
  rw [if_pos (show v.length + 2 > 2 from by omega)]

theorem applyUnit_unitChars (n : Int) (u : GoUnit) :
    applyUnit n (unitChars u) = .ok (wrap64 (n * unitNanos u)) := by
  cases u <;> simp only [unitChars, applyUnit, unitNanos, unitSeconds]
  case s => norm_num
  case m => norm_num
  case h => norm_num
  case d =>
    rw [wrap64_mul_left, show n * 24 * 3600000000000 = n * (86400 * 1000000000) by ring]
  case w =>
    rw [wrap64_mul_left, wrap64_mul_mul,
      show n * 7 * 24 * 3600000000000 = n * (604800 * 1000000000) by ring]
  case mo =>
    rw [wrap64_mul_left, wrap64_mul_mul,
      show n * 30 * 24 * 3600000000000 = n * (2592000 * 1000000000) by ring]

theorem splitDuration_append (v : List Char) (hv : v ≠ []) (u : GoUnit) :
    splitDuration (v ++ unitChars u) = (v, unitChars u) := by
  cases u
  case mo => exact splitDuration_append_mo v hv
  all_goals exact splitDuration_append_single v _ (by decide)

theorem parseDurationChars_append {v : List Char} {n : Int} (u : GoUnit)
    (h : goAtoi v = some n) :
    parseDurationChars (v ++ unitChars u) = .ok (wrap64 (n * unitNanos u)) := by
  have hv : v ≠ [] := goAtoi_ne_nil h
  have hvp : 1 ≤ v.length := List.length_pos.mpr hv
  have hlen : ¬ ((v ++ unitChars u).length < 2) := by
    cases u <;> simp [unitChars] <;> omega
  rw [parseDurationChars, if_neg hlen, splitDuration_append v hv u]
  simp only [h]
  exact applyUnit_unitChars n u

/-- Parsing a well-formed token `value ++ unit` whose mathematical result
fits in a signed 64-bit `time.Duration`: the wrap-around is the identity
and the result is exactly `n` times the unit's nanosecond multiplier. -/
theorem parseDuration_token {v : List Char} {n : Int} (u : GoUnit)
    (h : goAtoi v = some n)
    (hlo : -(9223372036854775808:Int) ≤ n * unitNanos u)
    (hhi : n * unitNanos u < 9223372036854775808) :
    parseDuration ⟨v ++ unitChars u⟩ = .ok (n * unitNanos u) := by
  rw [parseDuration, show (String.mk (v ++ unitChars u)).toList = v ++ unitChars u from rfl,
    parseDurationChars_append u h, wrap64_eq_self hlo hhi]

/-- The unit suffixes accepted by the `switch` of `parseDuration`. -/
def validUnitChars : List (List Char) := [['s'], ['m'], ['h'], ['d'], ['w'], ['m', 'o']]

theorem applyUnit_invalid (n : Int) (u : List Char) (hu : u ∉ validUnitChars) :
    applyUnit n u = .error .invalidUnit := by
  unfold applyUnit
  split <;> first | rfl | simp_all [validUnitChars]

/-! ## Claim C2 -/

/-- C2, counterexample.  The claim quantifies over *every* positive
integer `n`, but `parseDuration` runs on Go's 64-bit integers: for
`n = 2^63` the token `"9223372036854775808s"` makes `strconv.Atoi`
return a range error and parsing fails, and for `n = 10^10` the
multiplication `time.Duration(n) * time.Second` overflows `int64`, so
`"10000000000s"` parses to a negative duration instead of `10^10`
seconds. -/
theorem claim_C2_counterexample :
    parseDuration "9223372036854775808s" = .error .atoiError ∧
    parseDuration "10000000000s" = .ok (-8446744073709551616) ∧
    (-8446744073709551616 : Int) ≠ 10000000000 * 1000000000 := by
  refine ⟨by decide, by decide, by decide⟩

/-- C2 (amended): for every unit `u ∈ {s, m, h, d, w, mo}` and every
positive integer `n` (presented by a decimal token `v`, so `n` is within
`int64` range) such that `n` times the unit's nanosecond multiplier still
fits in a signed 64-bit duration, parsing `v ++ unit` succeeds and yields
exactly `n * {1, 60, 3600, 86400, 604800, 2592000}` seconds (stated in
nanoseconds).  In particular `"5mo"` yields month semantics (150 days),
not 5 minutes — see the witness. -/
theorem claim_C2 {v : List Char} {n : Int} (u : GoUnit)
    (hv : goAtoi v = some n) (hpos : 0 < n)
    (hfit : n * unitNanos u < 9223372036854775808) :
    parseDuration ⟨v ++ unitChars u⟩ = .ok (n * unitSeconds u * 1000000000) := by
  have hupos : 0 < unitNanos u := by cases u <;> decide
  have hlo : -(9223372036854775808:Int) ≤ n * unitNanos u := by
    have := mul_pos hpos hupos
    omega
  rw [show n * unitSeconds u * 1000000000 = n * unitNanos u from by rw [unitNanos, mul_assoc]]
  exact parseDuration_token u hv hlo hfit

/-- C2, witness: `"5mo"` parses to `5 × 2592000` seconds, i.e. exactly
150 days — month semantics, not minutes. -/
theorem claim_C2_witness :
    goAtoi ['5'] = some 5 ∧ (0:Int) < 5 ∧
    (5:Int) * unitNanos .mo < 9223372036854775808 ∧
    parseDuration ⟨['5'] ++ unitChars .mo⟩ = .ok (5 * unitSeconds .mo * 1000000000) ∧
    (5:Int) * unitSeconds .mo * 1000000000 = 150 * 86400 * 1000000000 :=
  ⟨by decide, by decide, by decide,
    claim_C2 .mo (by decide) (by decide) (by decide), by decide⟩

/-! ## Claim C7 -/

/-- C7: every malformed duration token is rejected with an error rather
than a panic (the embedding is a total function, so no execution path
panics): tokens shorter than 2 characters give the `"invalid duration
format"` error, tokens whose value part does not parse as an integer give
the `strconv.Atoi` error, and tokens with any unrecognized unit give the
`"invalid duration unit"` error. -/
theorem claim_C7 (s : String) :
    (s.toList.length < 2 → parseDuration s = .error .invalidFormat) ∧
    (¬ s.toList.length < 2 → goAtoi (splitDuration s.toList).1 = none →
      parseDuration s = .error .atoiError) ∧
    (∀ n : Int, ¬ s.toList.length < 2 → goAtoi (splitDuration s.toList).1 = some n →
      (splitDuration s.toList).2 ∉ validUnitChars →
      parseDuration s = .error .invalidUnit) := by
  refine ⟨fun h => ?_, fun h ha => ?_, fun n h ha hu => ?_⟩
  · rw [parseDuration, parseDurationChars, if_pos h]
  · rw [parseDuration, parseDurationChars, if_neg h, ha]
  · rw [parseDuration, parseDurationChars, if_neg h, ha]
    exact applyUnit_invalid n _ hu

/-- C7, witness: the spec's four example tokens `""`, `"5"`, `"abc d"`,
`"5x"` all fail with the corresponding error. -/
theorem claim_C7_witness :
    parseDuration "" = .error .invalidFormat ∧
    parseDuration "5" = .error .invalidFormat ∧
    parseDuration "abc d" = .error .atoiError ∧
    parseDuration "5x" = .error .invalidUnit :=
  ⟨(claim_C7 "").1 (by decide), (claim_C7 "5").1 (by decide),
    (claim_C7 "abc d").2.1 (by decide) (by decide),
    (claim_C7 "5x").2.2 5 (by decide) (by decide) (by decide)⟩

/-! ## Claim C10 -/

/-- C10, counterexample.  The claim quantifies over *every* integer `n`,
but for `n = -2^63 - 1` the token `"-9223372036854775809d"` fails with
`strconv.Atoi`'s range error instead of succeeding, and for
`n = -2^63` (which `Atoi` does accept) the chained `time.Duration`
multiplication wraps around to `0`, which is not the corresponding
negative span `-2^63 × 86400 × 10^9`. -/
theorem claim_C10_counterexample :
    parseDuration "-9223372036854775809d" = .error .atoiError ∧
    parseDuration "-9223372036854775808d" = .ok 0 ∧
    (0 : Int) ≠ -9223372036854775808 * 86400000000000 := by
  refine ⟨by decide, by decide, by decide⟩

/-- C10 (amended): the duration parser accepts zero and negative values:
for every integer `n` presented by a (possibly signed) decimal token `v`
and every valid unit `u`, as long as `n` times the unit's nanosecond
multiplier stays within the signed 64-bit range, parsing `v ++ unit`
succeeds and returns the correspondingly zero or negative span rather
than a format error. -/
theorem claim_C10 {v : List Char} {n : Int} (u : GoUnit)
    (hv : goAtoi v = some n)
    (hlo : -(9223372036854775808:Int) ≤ n * unitNanos u)
    (hhi : n * unitNanos u < 9223372036854775808) :
    parseDuration ⟨v ++ unitChars u⟩ = .ok (n * unitNanos u) ∧
    (n ≤ 0 → n * unitNanos u ≤ 0) := by
  refine ⟨parseDuration_token u hv hlo hhi, fun hn => ?_⟩
  have hupos : (0:Int) ≤ unitNanos u := by cases u <;> decide
  exact mul_nonpos_iff.mpr (Or.inr ⟨hn, hupos⟩)

/-- C10, witness: `"-5d"` parses to minus five days and `"0w"` parses to
the zero span. -/
theorem claim_C10_witness :
    parseDuration ⟨['-', '5'] ++ unitChars .d⟩ = .ok (-5 * unitNanos .d) ∧
    (-5 : Int) * unitNanos .d ≤ 0 ∧
    parseDuration ⟨['0'] ++ unitChars .w⟩ = .ok (0 * unitNanos .w) :=
  ⟨(claim_C10 .d (by decide) (by decide) (by decide)).1,
    (claim_C10 .d (v := ['-', '5']) (by decide) (by decide) (by decide)).2 (by decide),
    (claim_C10 .w (by decide) (by decide) (by decide)).1⟩

/-! ## Claim C3 -/

/-- Detects a `merged:>=` clause. -/
def DateClause.isMGE : DateClause → Bool
  | .mergedGE _ => true
  | _ => false

/-- Detects a `merged:<=` clause. -/
def DateClause.isMLE : DateClause → Bool
  | .mergedLE _ => true
  | _ => false

/-- Detects a `created:>=` clause. -/
def DateClause.isCGE : DateClause → Bool
  | .createdGE _ => true
  | _ => false

/-- Detects a `created:<=` clause. -/
def DateClause.isCLE : DateClause → Bool
  | .createdLE _ => true
  | _ => false

/-- C3: with both date bounds configured, the query built for a status
carries the `merged:>=` / `merged:<=` clauses exactly when the status is
`"merged"` and the `created:>=` / `created:<=` clauses exactly otherwise;
and (unconditionally, for any date bounds) no built query ever carries
date clauses of both kinds.  The final conjunct ties the clause list to
the literal query string `fetchPRs` sends. -/
theorem claim_C3 (handle status startD endD : String)
    (hs : startD ≠ "") (he : endD ≠ "") :
    ((dateClauses status startD endD).any DateClause.isMGE = true ↔ status = "merged") ∧
    ((dateClauses status startD endD).any DateClause.isMLE = true ↔ status = "merged") ∧
    ((dateClauses status startD endD).any DateClause.isCGE = true ↔ status ≠ "merged") ∧
    ((dateClauses status startD endD).any DateClause.isCLE = true ↔ status ≠ "merged") ∧
    (∀ sD eD : String, ¬ ((dateClauses status sD eD).any DateClause.isMergedKind = true ∧
      (dateClauses status sD eD).any DateClause.isCreatedKind = true)) ∧
    buildQuery handle status startD endD =
      "author:" ++ handle ++ " is:pr is:" ++ status ++
        String.join ((dateClauses status startD endD).map DateClause.render) := by
  refine ⟨?_, ?_, ?_, ?_, fun sD eD => ?_, rfl⟩ <;>
    by_cases hm : status = "merged" <;>
      simp [dateClauses, hm, hs, he, DateClause.isMGE, DateClause.isMLE,
        DateClause.isCGE, DateClause.isCLE, DateClause.isMergedKind,
        DateClause.isCreatedKind]

/-- C3, witness at a concrete non-merged and merged status with both
bounds set. -/
theorem claim_C3_witness :
    (dateClauses "open" "2024-01-01" "2024-12-31").any DateClause.isCGE = true ∧
    ¬ (dateClauses "open" "2024-01-01" "2024-12-31").any DateClause.isMGE = true ∧
    (dateClauses "merged" "2024-01-01" "2024-12-31").any DateClause.isMGE = true :=
  ⟨((claim_C3 "alice" "open" "2024-01-01" "2024-12-31" (by decide) (by decide)).2.2.1).mpr
      (by decide),
    fun h => (by decide : ¬ ("open" : String) = "merged")
      (((claim_C3 "alice" "open" "2024-01-01" "2024-12-31" (by decide) (by decide)).1).mp h),
    ((claim_C3 "bob" "merged" "2024-01-01" "2024-12-31" (by decide) (by decide)).1).mpr rfl⟩

/-! ## Claim C4 -/

/-- C4: per (handle, status), with `N > 0` organizations configured
exactly `N` queries are issued — one per organization, each with an
`org:` clause — and the configured repositories are ignored; with zero
organizations and `M > 0` repositories exactly `M` queries are issued,
one per repository; with neither, exactly one unscoped query (the bare
built query, with no `org:` or `repo:` suffix) is issued.  The last
conjunct shows the issued-query trace of `fetchPRs` for one status is
exactly this fan-out. -/
theorem claim_C4 (q : String) (orgs repos : List String) :
    (orgs ≠ [] →
      scopeQueries q orgs repos = orgs.map (fun org => q ++ " org:" ++ org) ∧
      (scopeQueries q orgs repos).length = orgs.length ∧
      ∀ repos', scopeQueries q orgs repos' = scopeQueries q orgs repos) ∧
    (orgs = [] → repos ≠ [] →
      scopeQueries q orgs repos = repos.map (fun repo => q ++ " repo:" ++ repo) ∧
      (scopeQueries q orgs repos).length = repos.length) ∧
    (orgs = [] → repos = [] → scopeQueries q orgs repos = [q]) ∧
    (∀ (fetch : String → List PullRequest) (resolveStart : Int → String)
        (startD endD handle status : String),
      (fetchPRs fetch resolveStart "" startD endD handle orgs repos [status]).2 =
        scopeQueries (buildQuery handle status startD endD) orgs repos) := by
  refine ⟨fun ho => ?_, fun ho hr => ?_, fun ho hr => ?_,
    fun fetch resolveStart startD endD handle status => ?_⟩
  · have hl : 0 < orgs.length := List.length_pos.mpr ho
    refine ⟨by simp [scopeQueries, hl], by simp [scopeQueries, hl], fun repos' => ?_⟩
    simp [scopeQueries, hl]
  · have hl : 0 < repos.length := List.length_pos.mpr hr
    subst ho
    simp [scopeQueries, hl]
  · subst ho; subst hr
    simp [scopeQueries]
  · simp [fetchPRs, fetchPRsLoop, startResolve]

/-- C4, witness: two organizations and one repository configured issue
exactly the two org-scoped queries (repositories ignored); no scopes
issue the single unscoped query. -/
theorem claim_C4_witness :
    scopeQueries "q" ["o1", "o2"] ["r1"] = ["q org:o1", "q org:o2"] ∧
    (scopeQueries "q" ["o1", "o2"] ["r1"]).length = 2 ∧
    scopeQueries "q" ["o1", "o2"] ["zzz"] = scopeQueries "q" ["o1", "o2"] ["r1"] ∧
    scopeQueries "q" [] ["r1"] = ["q repo:r1"] ∧
    scopeQueries "q" [] [] = ["q"] :=
  ⟨by rw [(claim_C4 "q" ["o1", "o2"] ["r1"]).1 (by decide) |>.1]; decide,
    (claim_C4 "q" ["o1", "o2"] ["r1"]).1 (by decide) |>.2.1,
    (claim_C4 "q" ["o1", "o2"] ["r1"]).1 (by decide) |>.2.2 ["zzz"],
    by rw [((claim_C4 "q" [] ["r1"]).2.1 rfl (by decide)).1]; decide,
    (claim_C4 "q" [] []).2.2.1 rfl rfl⟩

/-! ## Claim C8 -/

/-- C8: with a non-empty malformed duration flag and a non-empty status
list (the loader guarantees at least one status), `fetchPRs` hits the
fatal `log.Fatalf` on the duration parse error in its very first status
iteration, and its issued-query trace is empty: the process aborts
before any fetch request is issued.  This holds for the unit of every
handle, so no handle's unit ever issues a request. -/
theorem claim_C8 (fetch : String → List PullRequest) (resolveStart : Int → String)
    (dur startD endD handle : String) (orgs repos statuses : List String)
    (hdur : dur ≠ "") (herr : ∃ e, parseDuration dur = .error e)
    (hst : statuses ≠ []) :
    (∃ e, (fetchPRs fetch resolveStart dur startD endD handle orgs repos statuses).1 =
      .error e) ∧
    (fetchPRs fetch resolveStart dur startD endD handle orgs repos statuses).2 = [] := by
  obtain ⟨e, he⟩ := herr
  obtain ⟨st, rest, rfl⟩ : ∃ st rest, statuses = st :: rest := by
    cases statuses with
    | nil => exact absurd rfl hst
    | cons st rest => exact ⟨st, rest, rfl⟩
  constructor
  · exact ⟨e, by simp [fetchPRs, fetchPRsLoop, startResolve, hdur, he, Except.map]⟩
  · simp [fetchPRs, fetchPRsLoop, startResolve, hdur, he, Except.map]

/-- C8, witness: the malformed duration `"5x"` aborts the fetch of a
concrete configuration with an empty request trace. -/
theorem claim_C8_witness :
    (∃ e, (fetchPRs (fun _ => [⟨"u", "t", true⟩]) (fun _ => "2024-01-01")
      "5x" "" "" "alice" ["org1"] [] ["merged"]).1 = .error e) ∧
    (fetchPRs (fun _ => [⟨"u", "t", true⟩]) (fun _ => "2024-01-01")
      "5x" "" "" "alice" ["org1"] [] ["merged"]).2 = [] :=
  claim_C8 _ _ _ _ _ _ _ _ _ (by decide) ⟨.invalidUnit, by decide⟩ (by decide)

/-! ## Claim C9 -/

theorem cSum_cAdd (m : List (String × Nat)) (k : String) (d : Nat) :
    cSum (cAdd m k d) = cSum m + d := by
  induction m with
  | nil => simp [cAdd, cSum]
  | cons kv rest ih =>
    obtain ⟨k', v'⟩ := kv
    by_cases h : k' = k
    · simp [cAdd, h, cSum]
      omega
    · simp [cAdd, h, cSum] at ih ⊢
      omega

theorem doScopes_invariant (fetch : String → List PullRequest) (status : String)
    (qs : List String) :
    ∀ summ : Summary, cSum summ.Counts = summ.PRs.length →
      cSum (doScopes fetch status qs summ).Counts =
        (doScopes fetch status qs summ).PRs.length := by
  induction qs with
  | nil => intro summ h; simpa [doScopes] using h
  | cons q rest ih =>
    intro summ h
    have hstep : doScopes fetch status (q :: rest) summ =
        doScopes fetch status rest
          { summ with
            Counts := cAdd summ.Counts status (fetch q).length,
            PRs := summ.PRs ++ fetch q } := by
      simp [doScopes]
    rw [hstep]
    apply ih
    simp [cSum_cAdd, h]

theorem fetchPRsLoop_invariant (fetch : String → List PullRequest)
    (resolveStart : Int → String) (dur startD endD handle : String)
    (orgs repos : List String) :
    ∀ (statuses : List String) (summ : Summary) (issued : List String),
      cSum summ.Counts = summ.PRs.length →
      ∀ s : Summary,
        (fetchPRsLoop fetch resolveStart dur startD endD handle orgs repos
          statuses summ issued).1 = .ok s →
        cSum s.Counts = s.PRs.length := by
  intro statuses
  induction statuses with
  | nil =>
    intro summ issued h s hs
    simp [fetchPRsLoop] at hs
    exact hs ▸ h
  | cons st rest ih =>
    intro summ issued h s hs
    rw [fetchPRsLoop] at hs
    cases hsr : startResolve resolveStart dur startD with
    | error e => rw [hsr] at hs; simp at hs
    | ok sd =>
      rw [hsr] at hs
      simp only at hs
      exact ih _ _ (doScopes_invariant fetch st _ summ h) s hs

/-- C9: for every completed per-handle fetch, the sum over all stored
statuses of the per-status counts equals the length of the accumulated
PR sequence — each scope fetch adds `len(results)` to the status's count
and appends exactly those results. -/
theorem claim_C9 (fetch : String → List PullRequest) (resolveStart : Int → String)
    (dur startD endD handle : String) (orgs repos statuses : List String)
    (s : Summary)
    (h : (fetchPRs fetch resolveStart dur startD endD handle orgs repos statuses).1 =
      .ok s) :
    cSum s.Counts = s.PRs.length :=
  fetchPRsLoop_invariant fetch resolveStart dur startD endD handle orgs repos
    statuses ⟨handle, [], []⟩ [] (by simp [cSum]) s h

/-- C9, witness: a concrete two-status fetch returning one PR per query
has counts summing to the length of its PR list. -/
theorem claim_C9_witness :
    (fetchPRs (fun _ => [⟨"u", "t", true⟩]) (fun _ => "2024-01-01")
      "" "" "" "alice" [] [] ["merged", "open"]).1 =
      (Except.ok ⟨"alice", [("merged", 1), ("open", 1)],
        [⟨"u", "t", true⟩, ⟨"u", "t", true⟩]⟩ : Except DurationError Summary) ∧
    cSum [("merged", 1), ("open", 1)] =
      ([⟨"u", "t", true⟩, ⟨"u", "t", true⟩] : List PullRequest).length :=
  ⟨by decide,
    claim_C9 (fun _ => [⟨"u", "t", true⟩]) (fun _ => "2024-01-01")
      "" "" "" "alice" [] [] ["merged", "open"]
      ⟨"alice", [("merged", 1), ("open", 1)],
        [⟨"u", "t", true⟩, ⟨"u", "t", true⟩]⟩ (by decide)⟩

/-! ## Claim C1 -/

theorem foldl_set_getElem? {α : Type} (f : Nat → α) (order : List Nat) :
    ∀ (acc : List α) (j : Nat),
      (order.foldl (fun a i => a.set i (f i)) acc)[j]? =
        if j ∈ order ∧ j < acc.length then some (f j) else acc[j]? := by
  induction order with
  | nil => intro acc j; simp
  | cons i tl ih =>
    intro acc j
    rw [List.foldl_cons, ih, List.length_set, List.getElem?_set]
    by_cases hij : i = j
    · subst hij
      by_cases hlt : i < acc.length
      · by_cases hj : i ∈ tl <;> simp [hj, hlt]
      · have hnone : acc[i]? = none := List.getElem?_eq_none (by omega)
        by_cases hj : i ∈ tl <;> simp [hj, hlt, hnone]
    · have hji : ¬ j = i := fun hc => hij hc.symm
      by_cases hj : j ∈ tl <;> simp [hij, hji, hj]

theorem fetchAllPRs_perm (work : String → Summary) (handles : List String)
    (order : List Nat) (h : order.Perm (List.range handles.length)) :
    fetchAllPRs work handles order = handles.map work := by
  apply List.ext_getElem?
  intro j
  rw [fetchAllPRs, foldl_set_getElem? (fun i => work (handles.getD i "")) order,
    List.length_replicate]
  have hmem : j ∈ order ↔ j < handles.length := by rw [h.mem_iff, List.mem_range]
  by_cases hj : j < handles.length
  · rw [if_pos ⟨hmem.mpr hj, hj⟩]
    simp [List.getElem?_map, List.getElem?_eq_getElem hj, List.getD_eq_getElem _ _ hj]
  · rw [if_neg (fun hc => hj hc.2)]
    have h1 : (List.replicate handles.length emptySummary)[j]? = none :=
      List.getElem?_eq_none (by simpa using by omega)
    have h2 : (handles.map work)[j]? = none :=
      List.getElem?_eq_none (by simpa using by omega)
    rw [h1, h2]

/-- C1: for every per-handle unit of work, every handle list and every
completion order of the concurrent slot writes (any permutation of the
handle indices), the coordinator's result has exactly the length of the
handle list and its `i`-th slot holds the summary of the `i`-th handle:
the result is deterministically positioned, independent of completion
order. -/
theorem claim_C1 (work : String → Summary) (handles : List String)
    (order : List Nat) (h : order.Perm (List.range handles.length)) :
    (fetchAllPRs work handles order).length = handles.length ∧
    fetchAllPRs work handles order = handles.map work ∧
    ∀ i, i < handles.length →
      (fetchAllPRs work handles order).getD i emptySummary =
        work (handles.getD i "") := by
  have he := fetchAllPRs_perm work handles order h
  refine ⟨by rw [he]; simp, he, fun i hi => ?_⟩
  rw [he, List.getD_eq_getElem _ _ (by simpa using hi),
    List.getD_eq_getElem _ _ hi]
  simp

/-- A concrete per-handle unit of work instantiating the coordinator
theorem: the real `fetchPRs` pipeline over a one-PR-per-query fetch. -/
def c1Work (h : String) : Summary :=
  okOr (fetchPRs (fun q => [⟨q, "t", true⟩]) (fun _ => "2024-01-01")
    "" "" "" h [] [] ["merged"]).1

/-- C1, witness: two handles whose concurrent fetches complete in
reversed order `[1, 0]` still land in configuration order. -/
theorem claim_C1_witness :
    ([1, 0] : List Nat).Perm (List.range 2) ∧
    (fetchAllPRs c1Work ["alice", "bob"] [1, 0]).length = 2 ∧
    fetchAllPRs c1Work ["alice", "bob"] [1, 0] = ["alice", "bob"].map c1Work :=
  ⟨by decide, (claim_C1 c1Work ["alice", "bob"] [1, 0] (by decide)).1,
    (claim_C1 c1Work ["alice", "bob"] [1, 0] (by decide)).2.1⟩

/-! ## Claim C6 -/

/-- C6, counterexample.  `fetchPRs` appends fetched PRs to the summary
unconditionally (root.go lines 203, 217, 229); the `--show-prs` flag is
consulted only when printing (root.go lines 59-61).  With `showPRs =
false` and a fetch returning one PR, the produced summary still has a
non-empty PR sequence, refuting "when detail output is not requested,
every handle's Summary has an empty PR sequence". -/
theorem claim_C6_counterexample :
    ¬ (∀ s ∈ (runRoot (fun _ => [⟨"http://x", "t", true⟩]) (fun _ => "2024-01-01")
        "" "" "" ⟨["alice"], [], [], ["merged"]⟩ false [0]).1, s.PRs = []) := by
  decide

/-- C6 (amended): the PR sequence of every Summary is populated by the
fetch regardless of the `--show-prs` flag (the summaries are identical
for both flag values); the flag controls only whether the detailed PR
listing is emitted — it is `none` when detail output is not requested
and the full listing exactly when it is. -/
theorem claim_C6 (fetch : String → List PullRequest) (resolveStart : Int → String)
    (dur startD endD : String) (config : Config) (order : List Nat) :
    (runRoot fetch resolveStart dur startD endD config true order).1 =
      (runRoot fetch resolveStart dur startD endD config false order).1 ∧
    (runRoot fetch resolveStart dur startD endD config false order).2 = none ∧
    (runRoot fetch resolveStart dur startD endD config true order).2 =
      some (detailLines
        (runRoot fetch resolveStart dur startD endD config true order).1) :=
  ⟨rfl, rfl, rfl⟩

/-! ## Claim C5: helper lemmas about the presenter loops -/

theorem cGet_cAdd (m : List (String × Nat)) (k q : String) (d : Nat) :
    cGet (cAdd m k d) q = if k = q then cGet m q + d else cGet m q := by
  induction m with
  | nil => by_cases h : k = q <;> simp [cAdd, cGet, h]
  | cons kv rest ih =>
    obtain ⟨k', v'⟩ := kv
    by_cases h1 : k' = k
    · subst h1
      by_cases h2 : k' = q <;> simp [cAdd, cGet, h2]
    · by_cases h2 : k' = q
      · subst h2
        have hkq : ¬ k = k' := fun hc => h1 hc.symm
        simp [cAdd, cGet, h1, hkq]
      · simp [cAdd, cGet, h1, h2, ih]

theorem inner_loop_eq (vv : String → Nat) (sts : List String) :
    ∀ (r0 : List String) (t0 : Nat) (tc0 : List (String × Nat)),
      sts.foldl (fun rt st =>
          (rt.1 ++ [toString (vv st)], rt.2.1 + vv st, cAdd rt.2.2 st (vv st)))
        (r0, t0, tc0) =
        (r0 ++ sts.map (fun st => toString (vv st)),
          t0 + (sts.map (fun st => vv st)).sum,
          sts.foldl (fun tc st => cAdd tc st (vv st)) tc0) := by
  induction sts with
  | nil => intro r0 t0 tc0; simp
  | cons st rest ih =>
    intro r0 t0 tc0
    simp only [List.foldl_cons, List.map_cons, List.sum_cons]
    rw [ih]
    simp [List.append_assoc, Nat.add_assoc]

theorem foldl_append_sum (g : String → String) (v : String → Nat) (l : List String) :
    ∀ (r0 : List String) (t0 : Nat),
      l.foldl (fun acc x => (acc.1 ++ [g x], acc.2 + v x)) (r0, t0) =
        (r0 ++ l.map (fun x => g x), t0 + (l.map (fun x => v x)).sum) := by
  induction l with
  | nil => intro r0 t0; simp
  | cons x xs ih =>
    intro r0 t0
    simp only [List.foldl_cons, List.map_cons, List.sum_cons]
    rw [ih]
    simp [List.append_assoc, Nat.add_assoc]

theorem cGet_tcFold (vv : String → Nat) (sts : List String) :
    ∀ (tc0 : List (String × Nat)) (st : String),
      cGet (sts.foldl (fun tc st' => cAdd tc st' (vv st')) tc0) st =
        cGet tc0 st + sts.count st * vv st := by
  induction sts with
  | nil => intro tc0 st; simp
  | cons s' rest ih =>
    intro tc0 st
    simp only [List.foldl_cons]
    rw [ih, cGet_cAdd]
    by_cases h : s' = st
    · subst h
      simp [List.count_cons, Nat.add_mul]
      omega
    · have : ¬ (st = s') := fun hc => h hc.symm
      simp [List.count_cons, this, h]

theorem sum_map_add {α : Type} (l : List α) (f g : α → Nat) :
    (l.map (fun x => f x + g x)).sum = (l.map (fun x => f x)).sum + (l.map (fun x => g x)).sum := by
  induction l with
  | nil => simp
  | cons x xs ih => simp [ih]; omega

theorem sum_swap (sts : List String) (summaries : List Summary)
    (F : Summary → String → Nat) :
    (sts.map (fun st => (summaries.map (fun s => F s st)).sum)).sum =
      (summaries.map (fun s => (sts.map (fun st => F s st)).sum)).sum := by
  induction summaries with
  | nil => simp
  | cons s rest ih =>
    simp only [List.map_cons, List.sum_cons]
    rw [← ih, ← sum_map_add]

theorem cGet_outer_fold (sts : List String) (st : String) (summaries : List Summary) :
    ∀ tc0, cGet (summaries.foldl
        (fun tc s => sts.foldl (fun tc' st' => cAdd tc' st' (cGet s.Counts st')) tc)
        tc0) st =
      cGet tc0 st + sts.count st * (summaries.map (fun s => cGet s.Counts st)).sum := by
  induction summaries with
  | nil => intro tc0; simp
  | cons s rest ih =>
    intro tc0
    simp only [List.foldl_cons, List.map_cons, List.sum_cons]
    rw [ih, cGet_tcFold]
    ring

theorem outer_loop_eq (sts : List String) (summaries : List Summary) :
    ∀ (rows0 : List (List String)) (tc0 : List (String × Nat)),
      summaries.foldl
        (fun (acc : List (List String) × List (String × Nat)) s =>
          (acc.1 ++ [[s.Handle] ++ sts.map (fun st => toString (cGet s.Counts st)) ++
              [toString ((sts.map (fun st => cGet s.Counts st)).sum)]],
            sts.foldl (fun tc st => cAdd tc st (cGet s.Counts st)) acc.2))
        (rows0, tc0) =
      (rows0 ++ summaries.map (fun s =>
          [s.Handle] ++ sts.map (fun st => toString (cGet s.Counts st)) ++
            [toString ((sts.map (fun st => cGet s.Counts st)).sum)]),
        summaries.foldl
          (fun tc s => sts.foldl (fun tc' st => cAdd tc' st (cGet s.Counts st)) tc)
          tc0) := by
  induction summaries with
  | nil => intro rows0 tc0; simp
  | cons s rest ih =>
    intro rows0 tc0
    simp only [List.foldl_cons, List.map_cons]
    rw [ih]
    simp [List.append_assoc]

theorem printSummaryTable_closed (summaries : List Summary) (statuses : List String) :
    printSummaryTable summaries statuses =
      (summaries.map (fun s =>
          [s.Handle] ++ statuses.map (fun st => toString (cGet s.Counts st)) ++
            [toString ((statuses.map (fun st => cGet s.Counts st)).sum)]),
        ["Total"] ++ statuses.map (fun st => toString (cGet
            (summaries.foldl (fun tc s =>
              statuses.foldl (fun tc' st' => cAdd tc' st' (cGet s.Counts st')) tc) [])
            st)) ++
          [toString ((statuses.map (fun st => cGet
            (summaries.foldl (fun tc s =>
              statuses.foldl (fun tc' st' => cAdd tc' st' (cGet s.Counts st')) tc) [])
            st)).sum)]) := by
  simp only [printSummaryTable]
  simp only [inner_loop_eq]
  simp only [Nat.zero_add]
  rw [outer_loop_eq]
  simp only [List.nil_append]
  rw [foldl_append_sum (fun st => toString _) (fun st => cGet _ st)]
  simp [Nat.zero_add]

/-- C5, counterexample.  The claim as stated quantifies over every
configured status list, but with a duplicated status (`["open",
"open"]`) the presenter's `totalCounts` map accumulates each summary's
count once per occurrence (root.go line 280), so the footer shows `2`
per column and grand total `4` for a single handle whose `open` count is
`1`, while the claim's "sum of that status's counts over all handles"
is `1` per column with grand total `2`. -/
theorem claim_C5_counterexample :
    (printSummaryTable [⟨"alice", [("open", 1)], []⟩] ["open", "open"]).2 =
      ["Total", "2", "2", "4"] ∧
    ["Total", "2", "2", "4"] ≠
      ["Total"] ++ (["open", "open"] : List String).map (fun st =>
          toString ((([⟨"alice", [("open", 1)], []⟩] : List Summary).map
            (fun s => cGet s.Counts st)).sum)) ++
        [toString ((([⟨"alice", [("open", 1)], []⟩] : List Summary).map (fun s =>
          ((["open", "open"] : List String).map
            (fun st => cGet s.Counts st)).sum)).sum)] := by
  refine ⟨by decide, by decide⟩

/-- C5 (amended): provided the configured statuses are pairwise
distinct, the presenter emits one row per handle — the handle, its
per-status counts in configured status order, and their row total — and
a footer row in which each status column is the sum of that status's
counts over all handles and the last cell is the grand total over all
handles and statuses. -/
theorem claim_C5 (summaries : List Summary) (statuses : List String)
    (hnd : statuses.Nodup) :
    (printSummaryTable summaries statuses).1 =
      summaries.map (fun s =>
        [s.Handle] ++ statuses.map (fun st => toString (cGet s.Counts st)) ++
          [toString ((statuses.map (fun st => cGet s.Counts st)).sum)]) ∧
    (printSummaryTable summaries statuses).2 =
      ["Total"] ++ statuses.map (fun st =>
          toString ((summaries.map (fun s => cGet s.Counts st)).sum)) ++
        [toString ((summaries.map (fun s =>
          (statuses.map (fun st => cGet s.Counts st)).sum)).sum)] := by
  rw [printSummaryTable_closed]
  refine ⟨rfl, ?_⟩
  have hT : ∀ st ∈ statuses,
      cGet (summaries.foldl (fun tc s =>
        statuses.foldl (fun tc' st' => cAdd tc' st' (cGet s.Counts st')) tc) []) st =
      (summaries.map (fun s => cGet s.Counts st)).sum := by
    intro st hst
    rw [cGet_outer_fold]
    simp [List.count_eq_one_of_mem hnd hst, cGet]
  have hmap : statuses.map (fun st => toString (cGet
      (summaries.foldl (fun tc s =>
        statuses.foldl (fun tc' st' => cAdd tc' st' (cGet s.Counts st')) tc) []) st)) =
      statuses.map (fun st =>
        toString ((summaries.map (fun s => cGet s.Counts st)).sum)) :=
    List.map_congr_left (fun st hst => by rw [hT st hst])
  have hsum : (statuses.map (fun st => cGet
      (summaries.foldl (fun tc s =>
        statuses.foldl (fun tc' st' => cAdd tc' st' (cGet s.Counts st')) tc) []) st)).sum =
      (summaries.map (fun s =>
        (statuses.map (fun st => cGet s.Counts st)).sum)).sum := by
    rw [List.map_congr_left (fun st hst => hT st hst),
      sum_swap statuses summaries (fun s st => cGet s.Counts st)]
  rw [hmap, hsum]

/-- C5, witness: the spec's end-to-end example — handles `alice` (2
merged, 1 open) and `bob` (0/0), statuses `["merged", "open"]` — renders
rows `alice[2,1,3]`, `bob[0,0,0]` and footer `Total[2,1,3]`. -/
theorem claim_C5_witness :
    (["merged", "open"] : List String).Nodup ∧
    (printSummaryTable [⟨"alice", [("merged", 2), ("open", 1)], []⟩,
        ⟨"bob", [], []⟩] ["merged", "open"]).1 =
      [["alice", "2", "1", "3"], ["bob", "0", "0", "0"]] ∧
    (printSummaryTable [⟨"alice", [("merged", 2), ("open", 1)], []⟩,
        ⟨"bob", [], []⟩] ["merged", "open"]).2 = ["Total", "2", "1", "3"] :=
  ⟨by decide,
    ((claim_C5 [⟨"alice", [("merged", 2), ("open", 1)], []⟩, ⟨"bob", [], []⟩]
      ["merged", "open"] (by decide)).1).trans (by decide),
    ((claim_C5 [⟨"alice", [("merged", 2), ("open", 1)], []⟩, ⟨"bob", [], []⟩]
      ["merged", "open"] (by decide)).2).trans (by decide)⟩
